import Mathlib

/-!
# Verification of the BSON codec and wire-protocol client (Perl MongoDB XS layer)

This file gives a shallow embedding, in Lean 4, of the C core of the
`mongo-perl-driver` XS layer (`perl_mongo.c`, `mongo_link.c`,
`mongo_link.h`, `perl_mongo.h`) and proves or refutes a fixed list of
claims about it.

Modelling conventions:

* Machine bytes are `Nat` values `< 256`; byte buffers are `List Nat`.
* 32-bit and 64-bit machine integers are `Int` with explicit two's
  complement reduction (`toInt32`, `toInt64`) where the C truncates.
* Pointer walks that may run past the end of a buffer are modelled with
  `Option`: `none` stands for an out-of-bounds access (undefined
  behaviour in the C), `some` for a defined result.
* `croak` (fatal error surfaced to the caller) is modelled as a
  distinguished error constructor of an `Except`-style result.
* The socket receiver (`link->receiver`) is external to the repository;
  it is modelled by a transport double, either as the list of bytes the
  peer will ever send before closing the stream, or (for the low-level
  reader) as the list of per-call availabilities.
-/

namespace MongoPerl

/-! ## Byte-level utilities (little-endian, two's complement) -/

/-- The four little-endian bytes of the 32-bit truncation of `n`
(how `perl_mongo_serialize_int` lays an `int` out in the buffer on a
little-endian host, `MONGO_32` being the identity there). -/
def le32 (n : Int) : List Nat :=
  [((n % 4294967296).toNat) % 256,
   ((n % 4294967296).toNat / 256) % 256,
   ((n % 4294967296).toNat / 65536) % 256,
   ((n % 4294967296).toNat / 16777216) % 256]

/-- The eight little-endian bytes of the 64-bit truncation of `n`
(`perl_mongo_serialize_long`). -/
def le64 (n : Int) : List Nat :=
  [((n % 18446744073709551616).toNat) % 256,
   ((n % 18446744073709551616).toNat / 256) % 256,
   ((n % 18446744073709551616).toNat / 65536) % 256,
   ((n % 18446744073709551616).toNat / 16777216) % 256,
   ((n % 18446744073709551616).toNat / 4294967296) % 256,
   ((n % 18446744073709551616).toNat / 1099511627776) % 256,
   ((n % 18446744073709551616).toNat / 281474976710656) % 256,
   ((n % 18446744073709551616).toNat / 72057594037927936) % 256]

/-- Reassemble an unsigned 32-bit value from four little-endian bytes. -/
def readLE32 (bs : List Nat) : Nat :=
  match bs with
  | b0 :: b1 :: b2 :: b3 :: _ => b0 + 256 * b1 + 65536 * b2 + 16777216 * b3
  | _ => 0

/-- Interpret an unsigned 32-bit value as a signed C `int`
(two's complement), as reading `cursor->header.length` does. -/
def toInt32 (n : Nat) : Int :=
  if n % 4294967296 < 2147483648 then ((n % 4294967296 : Nat) : Int)
  else ((n % 4294967296 : Nat) : Int) - 4294967296

/-- Take exactly `n` bytes from a stream: `some` of the taken bytes and
the rest when the stream holds at least `n` bytes, `none` otherwise. -/
def takeBytes (n : Nat) (s : List Nat) : Option (List Nat × List Nat) :=
  if n ≤ s.length then some (s.take n, s.drop n) else none

theorem takeBytes_eq_some {n : Nat} {s taken rest : List Nat}
    (h : takeBytes n s = some (taken, rest)) :
    taken = s.take n ∧ rest = s.drop n ∧ n ≤ s.length := by
  unfold takeBytes at h
  split at h
  · cases h; exact ⟨rfl, rfl, by assumption⟩
  · cases h

theorem le32_readLE32 (n : Int) : readLE32 (le32 n) = (n % 4294967296).toNat := by
  have h0 : (0 : Int) ≤ n % 4294967296 := Int.emod_nonneg n (by norm_num)
  have h1 : n % 4294967296 < 4294967296 := Int.emod_lt_of_pos n (by norm_num)
  set m : Nat := (n % 4294967296).toNat with hm
  have hmlt : m < 4294967296 := by omega
  unfold le32 readLE32
  simp only [← hm]
  omega

/-! ## Object ids: `perl_mongo_make_oid` and `perl_mongo_serialize_oid`
(`perl_mongo.c`) -/

/-- The lookup table `ra_hex` of `perl_mongo_make_oid`:
`"0123456789abcdef"`, as byte values. -/
def ra_hex : List Nat := [48, 49, 50, 51, 52, 53, 54, 55, 56, 57, 97, 98, 99, 100, 101, 102]

/-- One nibble to its hex character (indexing into `ra_hex`). -/
def nibbleChar (x : Nat) : Nat := ra_hex.getD x 0

/-- Model of `perl_mongo_make_oid`: turn raw id bytes into their display
form; each input byte `x` contributes `ra_hex[x >> 4]` then
`ra_hex[x & 0x0f]`.  The trailing `NUL` the C writes after the 24
characters is modelled by `perl_mongo_make_oid bytes ++ [0]` being the
25-byte C output buffer; the function itself returns the 24 characters. -/
def perl_mongo_make_oid : List Nat → List Nat
  | [] => []
  | x :: rest => nibbleChar ((x % 256) / 16) :: nibbleChar (x % 16) :: perl_mongo_make_oid rest

/-- The per-character digit conversion of `perl_mongo_serialize_oid`:
three chained conditional rewrites on the (signed) character value. -/
def oidDigit (c : Int) : Int :=
  let d1 := if 97 ≤ c ∧ c ≤ 102 then c - 87 else c
  let d2 := if 65 ≤ d1 ∧ d1 ≤ 70 then d1 - 55 else d1
  if 48 ≤ d2 ∧ d2 ≤ 57 then d2 - 48 else d2

/-- Model of `perl_mongo_serialize_oid`: consume the display-form
characters two at a time, writing `digit1 * 16 + digit2` into the
buffer.  The C loops `i` from `0` to `OID_SIZE - 1 = 11` over `id[2i]`,
`id[2i+1]`; the assignment `buf->pos[i] = digit1 * 16 + digit2`
truncates the `int` product to one byte, modelled by `% 256` on the
nonnegative value. -/
def perl_mongo_serialize_oid : List Nat → List Nat
  | c1 :: c2 :: rest =>
      ((oidDigit c1 * 16 + oidDigit c2).toNat % 256) :: perl_mongo_serialize_oid rest
  | _ => []

/-- A byte is a lowercase hexadecimal character: `0`–`9` or `a`–`f`. -/
def isLowerHex (c : Nat) : Prop := (48 ≤ c ∧ c ≤ 57) ∨ (97 ≤ c ∧ c ≤ 102)

instance (c : Nat) : Decidable (isLowerHex c) := by unfold isLowerHex; infer_instance

theorem nibbleChar_lowerHex {x : Nat} (h : x < 16) : isLowerHex (nibbleChar x) := by
  unfold isLowerHex nibbleChar ra_hex
  interval_cases x <;> simp

theorem oidDigit_nibbleChar {x : Nat} (h : x < 16) : oidDigit (nibbleChar x) = x := by
  unfold oidDigit nibbleChar ra_hex
  interval_cases x <;> norm_num

/-- Single-byte roundtrip: hex-encoding one raw byte and converting the
two characters back reconstructs the byte. -/
theorem oid_byte_roundtrip {b : Nat} (h : b < 256) :
    oidDigit (nibbleChar (b / 16)) * 16 + oidDigit (nibbleChar (b % 16)) = b := by
  have h1 : b / 16 < 16 := by omega
  have h2 : b % 16 < 16 := Nat.mod_lt _ (by norm_num)
  rw [oidDigit_nibbleChar h1, oidDigit_nibbleChar h2]
  omega

theorem make_oid_length (bs : List Nat) :
    (perl_mongo_make_oid bs).length = 2 * bs.length := by
  induction bs with
  | nil => rfl
  | cons x rest ih => simp [perl_mongo_make_oid, ih]; omega

theorem make_oid_lowerHex (bs : List Nat) :
    ∀ c ∈ perl_mongo_make_oid bs, isLowerHex c := by
  induction bs with
  | nil => intro c hc; cases hc
  | cons x rest ih =>
      intro c hc
      simp only [perl_mongo_make_oid, List.mem_cons] at hc
      rcases hc with h | h | h
      · subst h; exact nibbleChar_lowerHex (by omega)
      · subst h; exact nibbleChar_lowerHex (Nat.mod_lt _ (by norm_num))
      · exact ih c h

theorem serialize_make_oid (bs : List Nat) (hb : ∀ x ∈ bs, x < 256) :
    perl_mongo_serialize_oid (perl_mongo_make_oid bs) = bs := by
  induction bs with
  | nil => rfl
  | cons x rest ih =>
      have hx : x < 256 := hb x (List.mem_cons_self x rest)
      have hrest : ∀ y ∈ rest, y < 256 := fun y hy => hb y (List.mem_cons_of_mem x hy)
      have hmod : x % 256 = x := Nat.mod_eq_of_lt hx
      have hround := oid_byte_roundtrip hx
      simp only [perl_mongo_make_oid, perl_mongo_serialize_oid, hmod, ih hrest,
        List.cons.injEq, and_true]
      omega

/-- C10.  For every 12-byte object id, `perl_mongo_make_oid` yields
exactly 24 lowercase hexadecimal characters (the C additionally writes a
terminating NUL after them, so the full 25-byte output buffer is
`perl_mongo_make_oid b ++ [0]`), and `perl_mongo_serialize_oid` applied
to that display form writes back exactly the original 12 bytes: the
display conversion and its parse are mutually inverse. -/
theorem C10_oid_display_roundtrip (b : List Nat)
    (hlen : b.length = 12) (hb : ∀ x ∈ b, x < 256) :
    (perl_mongo_make_oid b).length = 24 ∧
    (perl_mongo_make_oid b ++ [0]).length = 25 ∧
    (∀ c ∈ perl_mongo_make_oid b, isLowerHex c) ∧
    perl_mongo_serialize_oid (perl_mongo_make_oid b) = b := by
  refine ⟨?_, ?_, make_oid_lowerHex b, serialize_make_oid b hb⟩
  · rw [make_oid_length, hlen]
  · simp [make_oid_length, hlen]

/-- A concrete 12-byte id used to witness `C10_oid_display_roundtrip`. -/
def c10Bytes : List Nat := [78, 10, 0, 255, 16, 32, 171, 205, 239, 1, 99, 128]

/-- Witness for C10 at a concrete object id. -/
theorem C10_oid_display_roundtrip_witness :
    (c10Bytes.length = 12 ∧ (∀ x ∈ c10Bytes, x < 256)) ∧
    ((perl_mongo_make_oid c10Bytes).length = 24 ∧
     (perl_mongo_make_oid c10Bytes ++ [0]).length = 25 ∧
     (∀ c ∈ perl_mongo_make_oid c10Bytes, isLowerHex c) ∧
     perl_mongo_serialize_oid (perl_mongo_make_oid c10Bytes) = c10Bytes) :=
  ⟨⟨by decide, by decide⟩,
   C10_oid_display_roundtrip c10Bytes (by decide) (by decide)⟩

/-! ## Wire protocol link (`mongo_link.c`, `mongo_link.h`)

The socket is modelled by the list of bytes the server will deliver on
this connection before closing it.  A receiver call for `n` bytes
yields `min n available` bytes; it never returns `-1` in this double
(that would be a transport error, not end of stream). -/

/-- `MSG_HEADER_SIZE` from `mongo_link.h`. -/
def MSG_HEADER_SIZE : Int := 16

/-- `REPLY_HEADER_SIZE = MSG_HEADER_SIZE + 20` from `mongo_link.h`. -/
def REPLY_HEADER_SIZE : Int := MSG_HEADER_SIZE + 20

/-- `MAX_RESPONSE_LEN` from `mongo_link.h` (64 MiB). -/
def MAX_RESPONSE_LEN : Int := 67108864

/-- Reassemble an unsigned 64-bit value from eight little-endian bytes. -/
def readLE64 (bs : List Nat) : Nat :=
  match bs with
  | b0 :: b1 :: b2 :: b3 :: b4 :: b5 :: b6 :: b7 :: _ =>
      b0 + 256 * b1 + 65536 * b2 + 16777216 * b3 + 4294967296 * b4 +
      1099511627776 * b5 + 281474976710656 * b6 + 72057594037927936 * b7
  | _ => 0

/-- Interpret an unsigned 64-bit value as a signed `int64_t`. -/
def toInt64 (n : Nat) : Int :=
  if n % 18446744073709551616 < 9223372036854775808
  then ((n % 18446744073709551616 : Nat) : Int)
  else ((n % 18446744073709551616 : Nat) : Int) - 18446744073709551616

/-- `mongo_msg_header` from `mongo_link.h`: the fixed 16-byte wire
message header, four signed 32-bit fields. -/
structure mongo_msg_header where
  length : Int
  request_id : Int
  response_to : Int
  op : Int
deriving DecidableEq

/-- The sanity check of `get_header` (`mongo_link.c` line 484): the
declared message length is rejected, disconnecting the link, when
`length > MAX_RESPONSE_LEN || length < REPLY_HEADER_SIZE`. -/
def get_header_rejects (len : Int) : Bool :=
  len > MAX_RESPONSE_LEN || len < REPLY_HEADER_SIZE

/-- Model of `get_header`: read four little-endian `int32` fields from
the stream; after reading `length`, apply the bounds check before
reading the remaining three fields.  `none` covers both failure paths
of the C (`size != INT_32` on a short read, and the bounds rejection),
each of which makes `get_header` return `0` so that the caller croaks
before any response buffer is allocated. -/
def get_header (s : List Nat) : Option (mongo_msg_header × List Nat) :=
  if 4 ≤ s.length then
    if get_header_rejects (toInt32 (readLE32 s)) then none
    else if 16 ≤ s.length then
      some (⟨toInt32 (readLE32 s), toInt32 (readLE32 (s.drop 4)),
             toInt32 (readLE32 (s.drop 8)), toInt32 (readLE32 (s.drop 12))⟩,
            s.drop 16)
    else none
  else none

theorem get_header_some {s : List Nat} {hd : mongo_msg_header} {rest : List Nat}
    (h : get_header s = some (hd, rest)) :
    rest = s.drop 16 ∧ 16 ≤ s.length ∧
    get_header_rejects hd.length = false ∧
    hd.length = toInt32 (readLE32 s) := by
  unfold get_header at h
  split at h
  · split at h
    · cases h
    · split at h
      · cases h
        simp_all
      · cases h
  · cases h

/-- The fatal error conditions (`croak`) of `mongo_link_hear`.
`invalidHeader` covers both croaks issued when `get_header` returns 0;
`missedResponse` is the croak `missed the response we wanted` issued
when the awaited request id is smaller than the response id just read;
`readFail` stands for the reply sub-header being truncated (the C would
continue with unspecified field values there, which the model leaves
undefined); `cursorNotFound` is the croak on flag bit 0. -/
inductive HearErr where
  | invalidHeader
  | missedResponse
  | readFail
  | cursorNotFound
  | fuelExhausted
deriving DecidableEq

instance {ε α : Type} [DecidableEq ε] [DecidableEq α] : DecidableEq (Except ε α)
  | .error e, .error f =>
      if h : e = f then isTrue (by rw [h])
      else isFalse (fun hh => by cases hh; exact h rfl)
  | .error _, .ok _ => isFalse (fun hh => by cases hh)
  | .ok _, .error _ => isFalse (fun hh => by cases hh)
  | .ok x, .ok y =>
      if h : x = y then isTrue (by rw [h])
      else isFalse (fun hh => by cases hh; exact h rfl)

/-- The skip-replies loop of `mongo_link_hear` (`mongo_link.c` lines
553-591).  After reading a header whose `response_to` is not the
awaited request id, the C croaks if the awaited id is smaller
(`SvIV(request_id_sv) < cursor->header.response_to`); otherwise it
reads 20 bytes into a scratch buffer, then drains
`header.length - 36` further bytes in chunks of at most 4096 via
`mongo_link_reader`, and reads the next header.  With the byte-stream
transport double, a drain simply consumes `min` of the requested and
the available bytes, so it is modelled by `List.drop`.  The loop as
written terminates because every accepted header is at least
`REPLY_HEADER_SIZE` long; `fuel` bounds the number of iterations, and
any `fuel` larger than the number of replies in the stream is enough
(the `fuelExhausted` result is a modelling artifact never reached with
sufficient fuel). -/
def hearLoop (fuel : Nat) (expected : Int) (s : List Nat) :
    Except HearErr (mongo_msg_header × List Nat) :=
  match fuel with
  | 0 => .error .fuelExhausted
  | fuel + 1 =>
    match get_header s with
    | none => .error .invalidHeader
    | some (hd, rest) =>
      if hd.response_to = expected then .ok (hd, rest)
      else if expected < hd.response_to then .error .missedResponse
      else hearLoop fuel expected ((rest.drop 20).drop (hd.length - 36).toNat)

/-- The data `mongo_link_hear` deposits in the cursor on success:
the parsed reply header, the four reply sub-header fields, the length
`cursor->header.length - INT_32 * 9` of the buffer allocated for the
document stream, and the bytes placed in it. -/
structure HearResult where
  header : mongo_msg_header
  flag : Int
  cursor_id : Int
  start : Int
  num_returned : Int
  allocLen : Int
  body : List Nat
deriving DecidableEq

/-- Model of `mongo_link_hear` after the connection and timeout
preamble: run the matching loop, read the 20-byte reply sub-header
(`flag`, `cursor_id`, `start`, `num_returned`), croak on flag bit 0,
subtract 36 from the stored length, allocate that many bytes and fill
them from the stream (`mongo_link_reader` succeeds even on a short
final read, so the body is whatever bytes remain, at most `allocLen`). -/
def mongo_link_hear (fuel : Nat) (expected : Int) (s : List Nat) :
    Except HearErr HearResult :=
  match hearLoop fuel expected s with
  | .error e => .error e
  | .ok (hd, rest) =>
    match takeBytes 20 rest with
    | none => .error .readFail
    | some (sub, rest2) =>
      let flag := toInt32 (readLE32 sub)
      let cid := toInt64 (readLE64 (sub.drop 4))
      let start := toInt32 (readLE32 (sub.drop 12))
      let num := toInt32 (readLE32 (sub.drop 16))
      if flag % 2 = 1 then .error .cursorNotFound
      else
        let allocLen := hd.length - 36
        .ok ⟨hd, flag, cid, start, num, allocLen, rest2.take allocLen.toNat⟩

/-- The 16 bytes of a wire message header with the given field values. -/
def headerBytes (len rid rto op : Int) : List Nat :=
  le32 len ++ le32 rid ++ le32 rto ++ le32 op

theorem toInt32_readLE32_le32 {n : Int}
    (h1 : -2147483648 ≤ n) (h2 : n < 2147483648) :
    toInt32 (readLE32 (le32 n)) = n := by
  rw [le32_readLE32]
  unfold toInt32
  have hn : (0 : Int) ≤ n % 4294967296 := Int.emod_nonneg n (by norm_num)
  have hn2 : n % 4294967296 < 4294967296 := Int.emod_lt_of_pos n (by norm_num)
  have htn : (((n % 4294967296).toNat : Nat) : Int) = n % 4294967296 :=
    Int.toNat_of_nonneg hn
  have hmod : (n % 4294967296).toNat % 4294967296 = (n % 4294967296).toNat := by
    apply Nat.mod_eq_of_lt; omega
  rw [hmod]
  by_cases hsmall : 0 ≤ n
  · have : n % 4294967296 = n := Int.emod_eq_of_lt hsmall (by omega)
    rw [if_pos (by omega)]
    omega
  · have : n % 4294967296 = n + 4294967296 := by
      have := Int.add_mul_emod_self_left (a := n) (b := 4294967296) (c := 1)
      omega
    rw [if_neg (by omega)]
    omega

theorem readLE32_append {a rest : List Nat} (h : a.length = 4) :
    readLE32 (a ++ rest) = readLE32 a := by
  match a, h with
  | [b0, b1, b2, b3], _ => rfl

theorem get_header_headerBytes (len rid rto op : Int) (rest : List Nat)
    (hlen1 : REPLY_HEADER_SIZE ≤ len) (hlen2 : len ≤ MAX_RESPONSE_LEN)
    (hrid1 : -2147483648 ≤ rid) (hrid2 : rid < 2147483648)
    (hrto1 : -2147483648 ≤ rto) (hrto2 : rto < 2147483648)
    (hop1 : -2147483648 ≤ op) (hop2 : op < 2147483648) :
    get_header (headerBytes len rid rto op ++ rest) =
      some (⟨len, rid, rto, op⟩, rest) := by
  have hassoc : headerBytes len rid rto op ++ rest =
      le32 len ++ (le32 rid ++ (le32 rto ++ (le32 op ++ rest))) := by
    simp [headerBytes]
  rw [hassoc]
  set S := le32 len ++ (le32 rid ++ (le32 rto ++ (le32 op ++ rest))) with hS
  have h0 : readLE32 S = readLE32 (le32 len) := rfl
  have h4 : S.drop 4 = le32 rid ++ (le32 rto ++ (le32 op ++ rest)) := rfl
  have h8 : S.drop 8 = le32 rto ++ (le32 op ++ rest) := rfl
  have h12 : S.drop 12 = le32 op ++ rest := rfl
  have h16 : S.drop 16 = rest := rfl
  have hlength : 16 ≤ S.length := by
    rw [hS]; simp [le32]
  have hlen32 : toInt32 (readLE32 S) = len := by
    rw [h0]
    refine toInt32_readLE32_le32 ?_ ?_
    · unfold REPLY_HEADER_SIZE MSG_HEADER_SIZE at hlen1; omega
    · unfold MAX_RESPONSE_LEN at hlen2; omega
  have hrej : get_header_rejects len = false := by
    unfold get_header_rejects REPLY_HEADER_SIZE MSG_HEADER_SIZE MAX_RESPONSE_LEN at *
    simp only [Bool.or_eq_false_iff, decide_eq_false_iff_not]
    constructor <;> omega
  unfold get_header
  rw [if_pos (by omega), hlen32, hrej]
  simp only [Bool.false_eq_true, if_false, if_pos hlength]
  rw [h4, h8, h12]
  have hr : readLE32 (le32 rid ++ (le32 rto ++ (le32 op ++ rest))) = readLE32 (le32 rid) := rfl
  have ht : readLE32 (le32 rto ++ (le32 op ++ rest)) = readLE32 (le32 rto) := rfl
  have ho : readLE32 (le32 op ++ rest) = readLE32 (le32 op) := rfl
  rw [hr, ht, ho, h16]
  rw [toInt32_readLE32_le32 hrid1 hrid2, toInt32_readLE32_le32 hrto1 hrto2,
    toInt32_readLE32_le32 hop1 hop2]

/-- C1 (amended).  One iteration of the reply-matching loop of
`mongo_link_hear`: when the header just read carries the awaited id the
loop stops with that reply; when the reply id is LARGER than the
awaited request id the loop fails fatally (croak `missed the response
we wanted`, the ProtocolError of the spec); when the reply id is
SMALLER the loop drains and discards exactly the declared length of
that reply (the 16 header bytes already consumed plus 20 sub-header
bytes plus `length - 36` remaining bytes, in chunks of at most 4096)
and keeps reading headers from the position exactly `length` bytes
after the start of the discarded reply. -/
theorem C1_reply_ordering (fuel : Nat) (expected : Int) (s : List Nat)
    (hd : mongo_msg_header) (rest : List Nat)
    (h : get_header s = some (hd, rest)) :
    (hd.response_to = expected →
       hearLoop (fuel + 1) expected s = .ok (hd, rest)) ∧
    (expected < hd.response_to →
       hearLoop (fuel + 1) expected s = .error .missedResponse) ∧
    (hd.response_to < expected →
       hearLoop (fuel + 1) expected s =
         hearLoop fuel expected (s.drop hd.length.toNat)) := by
  obtain ⟨hrest, hlen16, hrej, -⟩ := get_header_some h
  have hstep : hearLoop (fuel + 1) expected s =
      (if hd.response_to = expected then .ok (hd, rest)
       else if expected < hd.response_to then .error .missedResponse
       else hearLoop fuel expected
         ((rest.drop 20).drop (hd.length - 36).toNat)) := by
    simp [hearLoop, h]
  have h36 : (36 : Int) ≤ hd.length := by
    unfold get_header_rejects REPLY_HEADER_SIZE MSG_HEADER_SIZE MAX_RESPONSE_LEN at hrej
    simp only [Bool.or_eq_false_iff, decide_eq_false_iff_not, not_lt] at hrej
    omega
  have hdropeq : (rest.drop 20).drop (hd.length - 36).toNat =
      s.drop hd.length.toNat := by
    subst hrest
    rw [List.drop_drop, List.drop_drop]
    congr 1
    omega
  refine ⟨fun he => ?_, fun hlt => ?_, fun hgt => ?_⟩
  · rw [hstep, if_pos he]
  · rw [hstep, if_neg (by omega), if_pos hlt]
  · rw [hstep, if_neg (by omega), if_neg (by omega), hdropeq]

/-- First scenario stream for the C1 counterexample: a reply to request
id 3 (declared length 36: the 16-byte header plus the 20-byte reply
sub-header, no documents), then a reply to request id 5. -/
def c1s1 : List Nat :=
  headerBytes 36 9 3 1 ++ List.replicate 20 0 ++ headerBytes 36 9 5 1

/-- Second scenario stream for the C1 counterexample: a reply to
request id 7 only. -/
def c1s2 : List Nat := headerBytes 36 9 7 1

/-- C1 counterexample.  Awaiting request id 5: a reply whose id 3 is
SMALLER than expected is not a ProtocolError — it is drained (exactly
its declared 36 bytes) and the loop succeeds on the following matching
reply; it is a reply with a LARGER id (7) that makes the loop croak.
This refutes the claim, which states the failure happens precisely on
a smaller-than-expected reply id. -/
theorem C1_counterexample :
    hearLoop 2 5 c1s1 = .ok (⟨36, 9, 5, 1⟩, []) ∧
    hearLoop 2 5 c1s2 = .error .missedResponse := by decide

/-- Stream for the C1 witness: one stale reply with id 5. -/
def c1ws : List Nat := headerBytes 36 2 5 1

/-- Witness for `C1_reply_ordering` at a concrete stale-reply stream,
awaiting request id 9. -/
theorem C1_reply_ordering_witness :
    get_header c1ws = some (⟨36, 2, 5, 1⟩, []) ∧
    (((⟨36, 2, 5, 1⟩ : mongo_msg_header).response_to = 9 →
       hearLoop 2 9 c1ws = .ok (⟨36, 2, 5, 1⟩, [])) ∧
     (9 < (⟨36, 2, 5, 1⟩ : mongo_msg_header).response_to →
       hearLoop 2 9 c1ws = .error .missedResponse) ∧
     ((⟨36, 2, 5, 1⟩ : mongo_msg_header).response_to < 9 →
       hearLoop 2 9 c1ws =
         hearLoop 1 9 (c1ws.drop (36 : Int).toNat))) :=
  ⟨by decide, C1_reply_ordering 1 9 c1ws ⟨36, 2, 5, 1⟩ [] (by decide)⟩

/-- C4 counterexample.  With the lower bound read as the 16-byte
message-header size (`MSG_HEADER_SIZE`), as the claim words it, the
equivalence fails: a declared length of 20 lies inside
`[16, MAX_RESPONSE_LEN]` yet `get_header` rejects it, because the code
compares against `REPLY_HEADER_SIZE = 36`, not 16. -/
theorem C4_counterexample :
    get_header_rejects 20 = true ∧
    ¬((20 : Int) < MSG_HEADER_SIZE ∨ MAX_RESPONSE_LEN < (20 : Int)) := by decide

/-- C4 (amended).  `get_header` rejects a declared message length
exactly when it is outside `[REPLY_HEADER_SIZE, MAX_RESPONSE_LEN]`,
that is outside `[36, 67108864]`; in particular a claimed length of 3
and a claimed length of `MAX_RESPONSE_LEN + 1` are both rejected.  In
the rejecting case `get_header` returns failure immediately — the
remaining header fields are not parsed, `mongo_link_hear` croaks, and
no buffer of the declared size is allocated (allocation happens only on
the success path of the model, mirroring `Newx` being reached only
after `get_header` succeeds).  For every in-range length the four
header fields are parsed and returned. -/
theorem C4_header_length_bounds (len rid rto op l : Int)
    (rest s2 : List Nat)
    (hl1 : -2147483648 ≤ l) (hl2 : l < 2147483648)
    (hlen1 : REPLY_HEADER_SIZE ≤ len) (hlen2 : len ≤ MAX_RESPONSE_LEN)
    (hrid1 : -2147483648 ≤ rid) (hrid2 : rid < 2147483648)
    (hrto1 : -2147483648 ≤ rto) (hrto2 : rto < 2147483648)
    (hop1 : -2147483648 ≤ op) (hop2 : op < 2147483648) :
    (∀ x : Int, get_header_rejects x = true ↔
       (x < REPLY_HEADER_SIZE ∨ MAX_RESPONSE_LEN < x)) ∧
    get_header_rejects 3 = true ∧
    get_header_rejects (MAX_RESPONSE_LEN + 1) = true ∧
    (get_header_rejects l = true → get_header (le32 l ++ s2) = none) ∧
    (∀ fuel expected, get_header_rejects l = true →
       mongo_link_hear (fuel + 1) expected (le32 l ++ s2) =
         .error .invalidHeader) ∧
    get_header (headerBytes len rid rto op ++ rest) =
      some (⟨len, rid, rto, op⟩, rest) := by
  have hreadl : toInt32 (readLE32 (le32 l ++ s2)) = l := by
    have : readLE32 (le32 l ++ s2) = readLE32 (le32 l) := rfl
    rw [this, toInt32_readLE32_le32 hl1 hl2]
  have hnone : get_header_rejects l = true → get_header (le32 l ++ s2) = none := by
    intro hrej
    unfold get_header
    rw [if_pos (by simp [le32]), hreadl, hrej]
    simp
  refine ⟨?_, by decide, by decide, hnone, ?_, ?_⟩
  · intro x
    unfold get_header_rejects REPLY_HEADER_SIZE MSG_HEADER_SIZE MAX_RESPONSE_LEN
    simp only [Bool.or_eq_true, decide_eq_true_eq]
    omega
  · intro fuel expected hrej
    unfold mongo_link_hear
    have : hearLoop (fuel + 1) expected (le32 l ++ s2) = .error .invalidHeader := by
      simp [hearLoop, hnone hrej]
    rw [this]
  · exact get_header_headerBytes len rid rto op rest hlen1 hlen2 hrid1 hrid2
      hrto1 hrto2 hop1 hop2

/-- Witness for `C4_header_length_bounds` at concrete values:
an in-range header of length 36 and a rejected length 3. -/
theorem C4_header_length_bounds_witness :
    ((-2147483648 : Int) ≤ 3 ∧ (3 : Int) < 2147483648 ∧
     REPLY_HEADER_SIZE ≤ (36 : Int) ∧ (36 : Int) ≤ MAX_RESPONSE_LEN) ∧
    ((∀ x : Int, get_header_rejects x = true ↔
        (x < REPLY_HEADER_SIZE ∨ MAX_RESPONSE_LEN < x)) ∧
     get_header_rejects 3 = true ∧
     get_header_rejects (MAX_RESPONSE_LEN + 1) = true ∧
     (get_header_rejects 3 = true → get_header (le32 3 ++ []) = none) ∧
     (∀ fuel expected, get_header_rejects 3 = true →
        mongo_link_hear (fuel + 1) expected (le32 3 ++ []) =
          .error .invalidHeader) ∧
     get_header (headerBytes 36 1 2 1 ++ []) =
       some (⟨36, 1, 2, 1⟩, [])) :=
  ⟨⟨by decide, by decide, by decide, by decide⟩,
   C4_header_length_bounds 36 1 2 1 3 [] [] (by decide) (by decide)
     (by decide) (by decide) (by decide) (by decide) (by decide) (by decide)
     (by decide) (by decide)⟩

/-! ## `mongo_link_reader` (`mongo_link.c` lines 645-663)

The receiver is modelled by a list of per-call availabilities: each
call pops the head `c`; the call returns `c` itself when `c < 0` (a
transport error), otherwise `min c requested` bytes.  An exhausted list
models a closed stream: the receiver returns 0. -/

/-- The read-assembly loop of `mongo_link_reader`: `while (read < len
&& num > 0)`, each call requesting `min (len - read) 4096` bytes (the
Windows `WSAEFAULT` cap), returning `-1` as soon as a receiver call
returns a negative value, and otherwise returning the accumulated
count `read` — even when the stream closed before `len` bytes arrived.
The receiver result `num` of the C is, under the double, `c` when
`c < 0` and `min c requested` otherwise, so the two tests `num < 0`
and `num == 0` are flattened to `c < 0` and
`min c requested = 0` here.  The result pairs the C return value with
the trace of per-call requested sizes. -/
def readerLoop (len : Int) : List Int → Int → Int × List Int
  | [], read =>
      if read < len then (read, [min (len - read) 4096]) else (read, [])
  | c :: cs, read =>
      if read < len then
        if c < 0 then (-1, [min (len - read) 4096])
        else if min c (min (len - read) 4096) = 0 then
          (read, [min (len - read) 4096])
        else
          ((readerLoop len cs (read + min c (min (len - read) 4096))).1,
           min (len - read) 4096 ::
             (readerLoop len cs (read + min c (min (len - read) 4096))).2)
      else (read, [])

/-- `mongo_link_reader` itself: the loop entered with `read = 0`;
the C return value only. -/
def mongo_link_reader (chunks : List Int) (len : Int) : Int :=
  (readerLoop len chunks 0).1

theorem readerLoop_requests (len : Int) :
    ∀ (chunks : List Int) (read : Int),
      ∀ t ∈ (readerLoop len chunks read).2, 1 ≤ t ∧ t ≤ 4096 := by
  intro chunks
  induction chunks with
  | nil =>
      intro read t ht
      unfold readerLoop at ht
      split at ht
      · simp only [List.mem_singleton] at ht
        subst ht
        constructor <;> omega
      · cases ht
  | cons c cs ih =>
      intro read t ht
      unfold readerLoop at ht
      split at ht
      · split at ht
        · simp only [List.mem_singleton] at ht
          subst ht; constructor <;> omega
        · split at ht
          · simp only [List.mem_singleton] at ht
            subst ht; constructor <;> omega
          · simp only [List.mem_cons] at ht
            rcases ht with h | h
            · subst h; constructor <;> omega
            · exact ih (read + min c (min (len - read) 4096)) t h
      · cases ht

theorem readerLoop_full (len : Int) :
    ∀ (chunks : List Int) (read : Int),
      (∀ c ∈ chunks, 4096 ≤ c) → read ≤ len →
      len - read ≤ 4096 * chunks.length →
      (readerLoop len chunks read).1 = len := by
  intro chunks
  induction chunks with
  | nil =>
      intro read _ h1 h2
      simp only [List.length_nil, Nat.cast_zero, mul_zero] at h2
      unfold readerLoop
      rw [if_neg (by omega)]
      show read = len
      omega
  | cons c cs ih =>
      intro read hc h1 h2
      have hch : 4096 ≤ c := hc c (List.mem_cons_self c cs)
      have hcs : ∀ x ∈ cs, 4096 ≤ x := fun x hx => hc x (List.mem_cons_of_mem c hx)
      simp only [List.length_cons, Nat.cast_add, Nat.cast_one] at h2
      unfold readerLoop
      by_cases hlt : read < len
      · rw [if_pos hlt]
        have ht1 : (1 : Int) ≤ min (len - read) 4096 := by omega
        have htc : min c (min (len - read) 4096) = min (len - read) 4096 := by omega
        rw [if_neg (by omega), htc, if_neg (by omega)]
        show (readerLoop len cs (read + min (len - read) 4096)).1 = len
        apply ih
        · exact hcs
        · omega
        · omega
      · rw [if_neg hlt]
        show read = len
        omega

theorem readerLoop_nonneg (len : Int) :
    ∀ (chunks : List Int) (read : Int),
      (∀ c ∈ chunks, 0 ≤ c) → 0 ≤ read →
      read ≤ (readerLoop len chunks read).1 := by
  intro chunks
  induction chunks with
  | nil =>
      intro read _ hr
      unfold readerLoop
      split <;> simp
  | cons c cs ih =>
      intro read hc hr
      have hch : 0 ≤ c := hc c (List.mem_cons_self c cs)
      have hcs : ∀ x ∈ cs, 0 ≤ x := fun x hx => hc x (List.mem_cons_of_mem c hx)
      unfold readerLoop
      by_cases hlt : read < len
      · rw [if_pos hlt, if_neg (by omega)]
        by_cases hz : min c (min (len - read) 4096) = 0
        · rw [if_pos hz]
        · rw [if_neg hz]
          show read ≤ (readerLoop len cs (read + min c (min (len - read) 4096))).1
          have := ih (read + min c (min (len - read) 4096)) hcs (by omega)
          omega
      · rw [if_neg hlt]

/-- C3 (amended).  `mongo_link_reader` assembles the requested `n`
bytes from repeated transport reads, each capped at 4096 bytes, and
returns exactly `n` whenever the transport supplies the bytes; it
returns the error value `-1` exactly on a negative (failing) receiver
call; but when the stream merely closes before `n` bytes have arrived
it returns the short accumulated count — a nonnegative, success-shaped
value — rather than an error: truncation by stream close is NOT
reported. -/
theorem C3_reader_assembly (len : Int) (chunks : List Int) :
    (∀ t ∈ (readerLoop len chunks 0).2, 1 ≤ t ∧ t ≤ 4096) ∧
    ((∀ c ∈ chunks, 4096 ≤ c) → 0 ≤ len → len ≤ 4096 * chunks.length →
       mongo_link_reader chunks len = len) ∧
    ((∀ c ∈ chunks, 0 ≤ c) → 0 ≤ mongo_link_reader chunks len) ∧
    (∀ c cs, chunks = c :: cs → c < 0 → 0 < len →
       mongo_link_reader chunks len = -1) := by
  refine ⟨readerLoop_requests len chunks 0, ?_, ?_, ?_⟩
  · intro hc h0 hsup
    exact readerLoop_full len chunks 0 hc h0 (by omega)
  · intro hc
    exact readerLoop_nonneg len chunks 0 hc (by omega)
  · intro c cs hch hneg hpos
    subst hch
    unfold mongo_link_reader readerLoop
    rw [if_pos (by omega), if_pos hneg]

/-- C3 counterexample.  Requesting 10 bytes from a transport that
yields 3 bytes and then closes: `mongo_link_reader` returns 3 — fewer
than the requested 10 — as a nonnegative (success-shaped) value instead
of reporting truncation, refuting the claim that the function never
silently returns fewer than `n` bytes as success. -/
theorem C3_counterexample :
    mongo_link_reader [3] 10 = 3 ∧
    mongo_link_reader [3] 10 ≠ -1 ∧
    (3 : Int) < 10 := by decide

/-- Witness for `C3_reader_assembly` at concrete values: a transport
supplying two full 4096-byte reads for an 8000-byte request. -/
theorem C3_reader_assembly_witness :
    (∀ t ∈ (readerLoop 8000 [4096, 4096] 0).2, 1 ≤ t ∧ t ≤ 4096) ∧
    ((∀ c ∈ [(4096 : Int), 4096], 4096 ≤ c) → (0 : Int) ≤ 8000 →
       (8000 : Int) ≤ 4096 * ([(4096 : Int), 4096] : List Int).length →
       mongo_link_reader [4096, 4096] 8000 = 8000) ∧
    ((∀ c ∈ [(4096 : Int), 4096], 0 ≤ c) →
       0 ≤ mongo_link_reader [4096, 4096] 8000) ∧
    (∀ c cs, ([(4096 : Int), 4096] : List Int) = c :: cs → c < 0 →
       (0 : Int) < 8000 → mongo_link_reader [4096, 4096] 8000 = -1) :=
  C3_reader_assembly 8000 [4096, 4096]

/-! ## `mongo_link_say` and `perl_mongo_master` (`mongo_link.c`)

The transport double for sending works at message granularity, as the
spec scenario prescribes: each physical `link->sender` call consumes
the next element of `writeOutcomes` (`true`: the whole buffer is
written and observed by the peer; `false`: the write fails with `-1`).
The external Perl `connect` method invoked by `perl_mongo_master` is
represented by the flag `connectOk`: when it is set, a reconnect
attempt leaves the master connected. -/

/-- The per-server state of `mongo_server` (`mongo_link.h`): only the
`connected` flag matters to the claims. -/
structure mongo_server where
  connected : Bool
deriving DecidableEq

/-- The link state of `mongo_link` (`mongo_link.h`): the
`auto_reconnect` flag, the master server (possibly absent), and the
`copy` flag marking a paired connection holder. -/
structure mongo_link where
  auto_reconnect : Bool
  master : Option mongo_server
  copy : Bool
deriving DecidableEq

/-- Model of `set_disconnected`: a no-op when there is no master or it
is already disconnected; otherwise clear `connected`, and for a `copy`
link also drop the master pointer. -/
def set_disconnected (l : mongo_link) : mongo_link :=
  match l.master with
  | none => l
  | some m =>
    if m.connected = false then l
    else
      if l.copy then { l with master := none }
      else { l with master := some { m with connected := false } }

/-- Model of `perl_mongo_master`: return the socket (here: `true`) when
the master is connected; otherwise, for a non-copy link, attempt the
external `connect` method when both the argument flag and the stored
`auto_reconnect` flag are set, and succeed only if that attempt left
the master connected.  The `copy` branch re-derives the master through
the external Perl `get_master` method, which lies outside this
repository; it is modelled as an unavailable master, a branch no
theorem below enters (they all fix `copy = false`). -/
def perl_mongo_master (l : mongo_link) (ar : Bool) (connectOk : Bool) :
    Bool × mongo_link :=
  if (match l.master with | some m => m.connected | none => false) then (true, l)
  else if l.copy = false then
    if ar ∧ l.auto_reconnect then
      let l2 := if connectOk then { l with master := some ⟨true⟩ } else l
      if (match l2.master with | some m => m.connected | none => false)
      then (true, l2) else (false, l2)
    else (false, l)
  else (false, { l with master := none })

/-- The world of one sending link: its state, the outcomes of the
successive physical writes, the outcome of reconnect attempts, and the
messages fully delivered to the peer so far. -/
structure SendWorld where
  link : mongo_link
  writeOutcomes : List Bool
  connectOk : Bool
  delivered : List (List Nat)
deriving DecidableEq

/-- Model of `mongo_link_say`: resolve the socket through
`perl_mongo_master` with the auto-reconnect argument set (reconnecting
BEFORE the write when the link is disconnected), then perform one
`link->sender` call.  On a failed write the link is marked disconnected
and `-1` — the failed byte count — is returned; there is no retransmit
inside the call.  An exhausted outcome list is treated as a failing
write. -/
def mongo_link_say (msg : List Nat) (w : SendWorld) : Int × SendWorld :=
  let pm := perl_mongo_master w.link true w.connectOk
  if pm.1 = false then (-1, { w with link := pm.2 })
  else
    match w.writeOutcomes with
    | [] => (-1, { w with link := set_disconnected pm.2 })
    | o :: os =>
      if o then
        ((msg.length : Int),
         { w with link := pm.2, writeOutcomes := os,
                  delivered := w.delivered ++ [msg] })
      else
        (-1, { w with link := set_disconnected pm.2, writeOutcomes := os })

/-- Initial world for the C2 counterexample: a connected non-copy link
with `auto_reconnect` set, whose next physical write fails and the one
after succeeds. -/
def c2w0 : SendWorld := ⟨⟨true, some ⟨true⟩, false⟩, [false, true], true, []⟩

/-- The message sent in the C2 scenario. -/
def c2msg : List Nat := [1, 2, 3]

/-- C2 counterexample.  On a link with `auto_reconnect` whose socket
write fails once, the `mongo_link_say` call in which the write fails
surfaces `-1` and delivers NOTHING: no reconnect-plus-retransmit
happens inside that call (the link is merely marked disconnected).
This refutes the claim that one reconnect and retransmit are attempted
before the failure is surfaced so that the message is delivered
exactly once by that send. -/
theorem C2_counterexample :
    (mongo_link_say c2msg c2w0).1 = -1 ∧
    (mongo_link_say c2msg c2w0).2.delivered = [] ∧
    (mongo_link_say c2msg c2w0).2.link.master = some ⟨false⟩ := by decide

/-- C2 (amended).  On a non-copy link with `auto_reconnect` set whose
next physical write fails: the failing `mongo_link_say` surfaces `-1`,
delivers nothing (the peer never observes a partial message in the
message-granular double), and transitions the link to Disconnected;
reconnection happens at the START of the next `mongo_link_say`, which
(when the reconnect succeeds) transmits the message it was given
exactly once.  A message is therefore delivered exactly once only if
the caller retries the send; a single call does not retransmit. -/
theorem C2_send_disconnect_then_reconnect (msg : List Nat) (w : SendWorld)
    (os : List Bool)
    (hlink : w.link = ⟨true, some ⟨true⟩, false⟩)
    (houts : w.writeOutcomes = false :: true :: os)
    (hconn : w.connectOk = true) :
    (mongo_link_say msg w).1 = -1 ∧
    (mongo_link_say msg w).2.delivered = w.delivered ∧
    (mongo_link_say msg w).2.link.master = some ⟨false⟩ ∧
    (mongo_link_say msg (mongo_link_say msg w).2).1 = (msg.length : Int) ∧
    (mongo_link_say msg (mongo_link_say msg w).2).2.delivered =
      w.delivered ++ [msg] := by
  obtain ⟨l, wo, co, d⟩ := w
  simp only at hlink houts hconn
  subst hlink; subst houts; subst hconn
  refine ⟨?_, ?_, ?_, ?_, ?_⟩ <;>
    simp [mongo_link_say, perl_mongo_master, set_disconnected]

/-- Witness for `C2_send_disconnect_then_reconnect` at the concrete
scenario world. -/
theorem C2_send_disconnect_then_reconnect_witness :
    (c2w0.link = (⟨true, some ⟨true⟩, false⟩ : mongo_link) ∧
     c2w0.writeOutcomes = false :: true :: [] ∧
     c2w0.connectOk = true) ∧
    ((mongo_link_say c2msg c2w0).1 = -1 ∧
     (mongo_link_say c2msg c2w0).2.delivered = c2w0.delivered ∧
     (mongo_link_say c2msg c2w0).2.link.master = some ⟨false⟩ ∧
     (mongo_link_say c2msg (mongo_link_say c2msg c2w0).2).1 =
       (c2msg.length : Int) ∧
     (mongo_link_say c2msg (mongo_link_say c2msg c2w0).2).2.delivered =
       c2w0.delivered ++ [c2msg]) :=
  ⟨⟨by decide, by decide, by decide⟩,
   C2_send_disconnect_then_reconnect c2msg c2w0 [] (by decide) (by decide)
     (by decide)⟩

/-! ## BSON encoder (`perl_mongo.c`: `append_sv`, `hv_to_bson`,
`av_to_bson`, `perl_mongo_prep`, `perl_mongo_serialize_size`)

Host values are the closed tagged union of the `append_sv` branches
that the claims exercise; every constructor corresponds to one branch
of the C dispatch.  Keys are byte lists (the C writes the key bytes
followed by a NUL; the `special_char` substitution is not configured,
and the croaking key validations abort an encode without producing a
document, so they do not affect any produced document).  The C
reserves 4 bytes for a container length, writes the body, writes the
NUL terminator, and then `perl_mongo_serialize_size` backpatches
`pos - start` into the reserved bytes; since `pos - start` is exactly
4 plus the body length plus 1, the functional form below emits
`le32 (4 + body.length + 1)` up front, and the theorem
`C7_length_prefix` also relates it to the explicit backpatch
function. -/

/-- BSON type tags from `perl_mongo.h`.  `BSON_MINKEY` is `(char)-1`,
which `set_type` stores as the byte `255`. -/
def BSON_DOUBLE : Nat := 1
def BSON_STRING : Nat := 2
def BSON_OBJECT : Nat := 3
def BSON_ARRAY : Nat := 4
def BSON_BINARY : Nat := 5
def BSON_UNDEF : Nat := 6
def BSON_OID : Nat := 7
def BSON_BOOL : Nat := 8
def BSON_DATE : Nat := 9
def BSON_NULL : Nat := 10
def BSON_REGEX : Nat := 11
def BSON_CODE__D : Nat := 13
def BSON_SYMBOL : Nat := 14
def BSON_CODE : Nat := 15
def BSON_INT : Nat := 16
def BSON_TIMESTAMP : Nat := 17
def BSON_LONG : Nat := 18
def BSON_MINKEY : Nat := 255
def BSON_MAXKEY : Nat := 127

/-- The bytes of the key `_id`. -/
def idKey : List Nat := [95, 105, 100]

/-- `perl_mongo_serialize_key` without the (unset) `special_char`
substitution: the key bytes followed by a NUL. -/
def serialize_key (key : List Nat) : List Nat := key ++ [0]

/-- The decimal display of an array index, as `SvPV` of `newSViv i`
produces it — the ASCII digit bytes. -/
def decimalKey (n : Nat) : List Nat := (Nat.toDigits 10 n).map Char.toNat

/-- Host values: one constructor per modelled `append_sv` branch.
`hv_null` is the `!SvOK` branch, `hv_int` the untyped-integer branch
(whose tag depends on the `USE_64_BIT_INT` build flag), `hv_str` the
plain-string branch, `hv_oid` a `MongoDB::OID` carrying its 24-byte
display value, `hv_bool` a `boolean` object, `hv_doc` a hash
reference, `hv_arr` an array reference, `hv_binary` a scalar-reference
binary (subtype 0), and the min/max key sentinels. -/
inductive HostVal where
  | hv_null
  | hv_int (i : Int)
  | hv_str (bytes : List Nat)
  | hv_oid (hex : List Nat)
  | hv_bool (b : Bool)
  | hv_doc (fields : List (List Nat × HostVal))
  | hv_arr (elems : List HostVal)
  | hv_binary (data : List Nat)
  | hv_minkey
  | hv_maxkey

mutual

/-- Model of `append_sv`: one type tag byte, the NUL-terminated key,
then the type-specific payload.  The untyped-integer branch mirrors
the `#if defined(USE_64_BIT_INT)` split of the C: tag `BSON_LONG` with
an 8-byte payload on 64-bit-IV builds, tag `BSON_INT` with a 4-byte
payload otherwise. -/
def append_sv (use64 : Bool) (key : List Nat) : HostVal → List Nat
  | .hv_null => BSON_NULL :: serialize_key key
  | .hv_int i =>
      if use64 then BSON_LONG :: (serialize_key key ++ le64 i)
      else BSON_INT :: (serialize_key key ++ le32 i)
  | .hv_str bytes =>
      BSON_STRING :: (serialize_key key ++
        (le32 ((bytes.length : Int) + 1) ++ (bytes ++ [0])))
  | .hv_oid hex =>
      BSON_OID :: (serialize_key key ++ perl_mongo_serialize_oid hex)
  | .hv_bool b =>
      BSON_BOOL :: (serialize_key key ++ [if b then 1 else 0])
  | .hv_doc fields =>
      BSON_OBJECT :: (serialize_key key ++
        (le32 ((4 + (fields_to_bson use64 false fields).length + 1 : Nat) : Int) ++
         (fields_to_bson use64 false fields ++ [0])))
  | .hv_arr elems =>
      BSON_ARRAY :: (serialize_key key ++
        (le32 ((4 + (elems_to_bson use64 0 elems).length + 1 : Nat) : Int) ++
         (elems_to_bson use64 0 elems ++ [0])))
  | .hv_binary data =>
      BSON_BINARY :: (serialize_key key ++
        (le32 (data.length : Int) ++ (0 :: data)))
  | .hv_minkey => BSON_MINKEY :: serialize_key key
  | .hv_maxkey => BSON_MAXKEY :: serialize_key key

/-- The field loop of `hv_to_bson`: append each field in iteration
order; when `skipId` is set (the `ids` case of the C) fields whose key
is `_id` are skipped (`continue`), having been emitted up front. -/
def fields_to_bson (use64 : Bool) (skipId : Bool) :
    List (List Nat × HostVal) → List Nat
  | [] => []
  | (k, v) :: rest =>
      (if skipId ∧ k = idKey then [] else append_sv use64 k v) ++
        fields_to_bson use64 skipId rest

/-- The element loop of `av_to_bson`: append each element under its
decimal index key. -/
def elems_to_bson (use64 : Bool) (i : Nat) : List HostVal → List Nat
  | [] => []
  | v :: rest =>
      append_sv use64 (decimalKey i) v ++ elems_to_bson use64 (i + 1) rest

end

/-- Model of `hv_to_bson` with `ids = NO_PREP` (as invoked for every
nested document): reserved length, body, NUL terminator, with the
backpatched total `4 + body + 1`. -/
def hv_to_bson (use64 : Bool) (fields : List (List Nat × HostVal)) : List Nat :=
  le32 ((4 + (fields_to_bson use64 false fields).length + 1 : Nat) : Int) ++
    (fields_to_bson use64 false fields ++ [0])

/-- Model of `av_to_bson`: identical framing around the element loop. -/
def av_to_bson (use64 : Bool) (elems : List HostVal) : List Nat :=
  le32 ((4 + (elems_to_bson use64 0 elems).length + 1 : Nat) : Int) ++
    (elems_to_bson use64 0 elems ++ [0])

/-- Model of `perl_mongo_serialize_size`: overwrite the 4 bytes at
offset `start` with the little-endian distance from `start` to the
current write position (the buffer end), leaving everything else in
place. -/
def perl_mongo_serialize_size (start : Nat) (buf : List Nat) : List Nat :=
  buf.take start ++ le32 ((buf.length - start : Nat) : Int) ++ buf.drop (start + 4)

/-- `hv_exists`/`hv_fetch` on the modelled field list: the value stored
under the first occurrence of a key. -/
def lookupField : List (List Nat × HostVal) → List Nat → Option HostVal
  | [], _ => none
  | (k, v) :: rest, key => if k = key then some v else lookupField rest key

/-- Model of the top-level `hv_to_bson` with a non-null `ids` array
(the `add_id_if_missing` entry point), together with the value pushed
onto `ids`.  When the hash holds an `_id` key, `append_sv` emits that
value FIRST (before the iteration loop, which then skips the `_id`
key) and the original value itself is pushed onto `ids`.  When no
`_id` exists, `perl_mongo_prep` emits a `BSON_OID` field named `_id`
whose payload is the 12 freshly generated bytes `gen`, and pushes a
`MongoDB::OID` whose value is the display form of `gen`. -/
def hv_to_bson_ids (use64 : Bool) (gen : List Nat)
    (fields : List (List Nat × HostVal)) : List Nat × Option HostVal :=
  let idPart : List Nat × Option HostVal :=
    match lookupField fields idKey with
    | some v => (append_sv use64 idKey v, some v)
    | none => (BSON_OID :: (serialize_key idKey ++ gen),
               some (.hv_oid (perl_mongo_make_oid gen)))
  (le32 ((4 + (idPart.1 ++ fields_to_bson use64 true fields).length + 1 : Nat) : Int) ++
     (idPart.1 ++ (fields_to_bson use64 true fields ++ [0])),
   idPart.2)

theorem framed_length_prefix (n : Nat) (R : List Nat)
    (hR : n = 4 + R.length) (h : n < 4294967296) :
    readLE32 (le32 (n : Int) ++ R) = (le32 (n : Int) ++ R).length := by
  have h0 : readLE32 (le32 (n : Int) ++ R) = readLE32 (le32 (n : Int)) := rfl
  have hlen : (le32 (n : Int) ++ R).length = 4 + R.length := by
    simp [le32]; omega
  rw [h0, le32_readLE32, hlen, ← hR]
  omega

theorem serialize_size_zero (R : List Nat) :
    perl_mongo_serialize_size 0 ([0, 0, 0, 0] ++ R) =
      le32 ((4 + R.length : Nat) : Int) ++ R := by
  unfold perl_mongo_serialize_size
  have h1 : (([0, 0, 0, 0] ++ R) : List Nat).take 0 = [] := rfl
  have h2 : (([0, 0, 0, 0] ++ R) : List Nat).drop (0 + 4) = R := rfl
  have h3 : ((([0, 0, 0, 0] ++ R).length - 0 : Nat) : Int) =
      ((4 + R.length : Nat) : Int) := by
    simp; omega
  rw [h1, h2, h3, List.nil_append]

/-- C7.  For every document or array produced by the encoder —
top-level documents with and without `_id` insertion, arrays, and
(since every nested container in an encoding is itself the output of
the same functions, over which this theorem quantifies) every nested
document and array — the leading 4-byte little-endian length field
equals the exact number of bytes from the start of the length field up
to and including the trailing NUL terminator.  The last two conjuncts
exhibit the framing as the explicit `perl_mongo_serialize_size`
backpatch of the reserved 4 bytes after body and terminator are
written. -/
theorem C7_length_prefix (use64 : Bool) (fields : List (List Nat × HostVal))
    (elems : List HostVal) (gen : List Nat)
    (h1 : (hv_to_bson use64 fields).length < 4294967296)
    (h2 : (av_to_bson use64 elems).length < 4294967296)
    (h3 : (hv_to_bson_ids use64 gen fields).1.length < 4294967296) :
    readLE32 (hv_to_bson use64 fields) = (hv_to_bson use64 fields).length ∧
    readLE32 (av_to_bson use64 elems) = (av_to_bson use64 elems).length ∧
    readLE32 (hv_to_bson_ids use64 gen fields).1 =
      (hv_to_bson_ids use64 gen fields).1.length ∧
    hv_to_bson use64 fields =
      perl_mongo_serialize_size 0
        ([0, 0, 0, 0] ++ (fields_to_bson use64 false fields ++ [0])) ∧
    av_to_bson use64 elems =
      perl_mongo_serialize_size 0
        ([0, 0, 0, 0] ++ (elems_to_bson use64 0 elems ++ [0])) := by
  have hshape : ∀ B : List Nat, (4 + B.length + 1 : Nat) = 4 + (B ++ [0]).length := by
    intro B; simp; omega
  refine ⟨?_, ?_, ?_, ?_, ?_⟩
  · unfold hv_to_bson at h1 ⊢
    apply framed_length_prefix _ _ (hshape _)
    simp [le32] at h1 ⊢
    omega
  · unfold av_to_bson at h2 ⊢
    apply framed_length_prefix _ _ (hshape _)
    simp [le32] at h2 ⊢
    omega
  · unfold hv_to_bson_ids at h3 ⊢
    cases hl : lookupField fields idKey with
    | some v =>
        rw [hl] at h3
        dsimp only at h3 ⊢
        have hsh : (4 + (append_sv use64 idKey v ++ fields_to_bson use64 true fields).length + 1 : Nat) =
            4 + (append_sv use64 idKey v ++ (fields_to_bson use64 true fields ++ [0])).length := by
          simp; omega
        apply framed_length_prefix _ _ hsh
        simp [le32] at h3 ⊢
        omega
    | none =>
        rw [hl] at h3
        dsimp only at h3 ⊢
        have hsh : (4 + ((BSON_OID :: (serialize_key idKey ++ gen)) ++ fields_to_bson use64 true fields).length + 1 : Nat) =
            4 + ((BSON_OID :: (serialize_key idKey ++ gen)) ++ (fields_to_bson use64 true fields ++ [0])).length := by
          simp; omega
        apply framed_length_prefix _ _ hsh
        simp [le32, serialize_key] at h3 ⊢
        omega
  · rw [serialize_size_zero]
    unfold hv_to_bson
    have : ((4 + (fields_to_bson use64 false fields ++ [0]).length : Nat) : Int) =
        ((4 + (fields_to_bson use64 false fields).length + 1 : Nat) : Int) := by
      simp; omega
    rw [this]
  · rw [serialize_size_zero]
    unfold av_to_bson
    have : ((4 + (elems_to_bson use64 0 elems ++ [0]).length : Nat) : Int) =
        ((4 + (elems_to_bson use64 0 elems).length + 1 : Nat) : Int) := by
      simp; omega
    rw [this]

/-- Witness for `C7_length_prefix` at a concrete nested value:
a document holding an integer, a nested document and a nested array. -/
theorem C7_length_prefix_witness :
    ((hv_to_bson false [([97], .hv_doc [([98], .hv_int 2)])]).length < 4294967296 ∧
     (av_to_bson false [.hv_int 1, .hv_arr [.hv_null]]).length < 4294967296 ∧
     (hv_to_bson_ids false [1, 2, 3, 4, 5, 6, 7, 8, 9, 10, 11, 12]
        [([97], .hv_doc [([98], .hv_int 2)])]).1.length < 4294967296) ∧
    (readLE32 (hv_to_bson false [([97], .hv_doc [([98], .hv_int 2)])]) =
       (hv_to_bson false [([97], .hv_doc [([98], .hv_int 2)])]).length ∧
     readLE32 (av_to_bson false [.hv_int 1, .hv_arr [.hv_null]]) =
       (av_to_bson false [.hv_int 1, .hv_arr [.hv_null]]).length ∧
     readLE32 (hv_to_bson_ids false [1, 2, 3, 4, 5, 6, 7, 8, 9, 10, 11, 12]
         [([97], .hv_doc [([98], .hv_int 2)])]).1 =
       (hv_to_bson_ids false [1, 2, 3, 4, 5, 6, 7, 8, 9, 10, 11, 12]
         [([97], .hv_doc [([98], .hv_int 2)])]).1.length ∧
     hv_to_bson false [([97], .hv_doc [([98], .hv_int 2)])] =
       perl_mongo_serialize_size 0
         ([0, 0, 0, 0] ++
          (fields_to_bson false false [([97], .hv_doc [([98], .hv_int 2)])] ++ [0])) ∧
     av_to_bson false [.hv_int 1, .hv_arr [.hv_null]] =
       perl_mongo_serialize_size 0
         ([0, 0, 0, 0] ++
          (elems_to_bson false 0 [.hv_int 1, .hv_arr [.hv_null]] ++ [0]))) :=
  ⟨⟨by decide, by decide, by decide⟩,
   C7_length_prefix false [([97], .hv_doc [([98], .hv_int 2)])]
     [.hv_int 1, .hv_arr [.hv_null]] [1, 2, 3, 4, 5, 6, 7, 8, 9, 10, 11, 12]
     (by decide) (by decide) (by decide)⟩

/-- The field list of the C5 counterexample: a field `a` followed by a
caller-supplied `_id`. -/
def c5fields : List (List Nat × HostVal) := [([97], .hv_int 5), (idKey, .hv_int 7)]

/-- C5 counterexample.  Encoding a mapping whose `_id` is NOT the first
field, with `add_id_if_missing` set: the supplied `_id` value is
emitted as the FIRST field of the document (before `a`), not in its
original (second) position, refuting the claim that a caller-supplied
`_id` is encoded in its original position among the fields.  The first
conjunct shows the actual bytes (id first), the second that they
differ from the original-position layout the claim requires; the third
shows the original value is still the one reported back. -/
theorem C5_counterexample :
    (hv_to_bson_ids false [0, 0, 0, 0, 0, 0, 0, 0, 0, 0, 0, 0] c5fields).1 =
      [21, 0, 0, 0, 16, 95, 105, 100, 0, 7, 0, 0, 0, 16, 97, 0, 5, 0, 0, 0, 0] ∧
    (hv_to_bson_ids false [0, 0, 0, 0, 0, 0, 0, 0, 0, 0, 0, 0] c5fields).1 ≠
      [21, 0, 0, 0, 16, 97, 0, 5, 0, 0, 0, 16, 95, 105, 100, 0, 7, 0, 0, 0, 0] ∧
    (hv_to_bson_ids false [0, 0, 0, 0, 0, 0, 0, 0, 0, 0, 0, 0] c5fields).2 =
      some (.hv_int 7) := by
  refine ⟨by decide, by decide, ?_⟩
  rfl

/-- C5 (amended).  For every top-level mapping encoded with
`add_id_if_missing`: if no `_id` key is present, the freshly generated
object id is inserted as the first field and a `MongoDB::OID` wrapping
its display form is reported back; if the caller already supplied
`_id`, no new id is generated (the output does not depend on the
generated bytes at all), the supplied value is encoded verbatim — but
as the FIRST field of the document, not in its original position — the
remaining fields follow in iteration order with the `_id` key skipped,
and the original supplied value is the one reported back. -/
theorem C5_id_insertion (use64 : Bool) (gen : List Nat)
    (fields fields2 : List (List Nat × HostVal)) (v : HostVal)
    (hpresent : lookupField fields idKey = some v)
    (habsent : lookupField fields2 idKey = none) :
    (hv_to_bson_ids use64 gen fields).1 =
      le32 ((4 + (append_sv use64 idKey v ++ fields_to_bson use64 true fields).length + 1 : Nat) : Int) ++
        (append_sv use64 idKey v ++ (fields_to_bson use64 true fields ++ [0])) ∧
    (hv_to_bson_ids use64 gen fields).2 = some v ∧
    (∀ gen2, hv_to_bson_ids use64 gen fields = hv_to_bson_ids use64 gen2 fields) ∧
    (hv_to_bson_ids use64 gen fields2).1 =
      le32 ((4 + ((BSON_OID :: (serialize_key idKey ++ gen)) ++ fields_to_bson use64 true fields2).length + 1 : Nat) : Int) ++
        ((BSON_OID :: (serialize_key idKey ++ gen)) ++ (fields_to_bson use64 true fields2 ++ [0])) ∧
    (hv_to_bson_ids use64 gen fields2).2 =
      some (.hv_oid (perl_mongo_make_oid gen)) := by
  refine ⟨?_, ?_, ?_, ?_, ?_⟩
  · unfold hv_to_bson_ids; rw [hpresent]
  · unfold hv_to_bson_ids; rw [hpresent]
  · intro gen2; unfold hv_to_bson_ids; rw [hpresent]
  · unfold hv_to_bson_ids; rw [habsent]
  · unfold hv_to_bson_ids; rw [habsent]

/-- Witness for `C5_id_insertion` at concrete field lists. -/
theorem C5_id_insertion_witness :
    (lookupField c5fields idKey = some (.hv_int 7) ∧
     lookupField [([97], HostVal.hv_int 5)] idKey = none) ∧
    ((hv_to_bson_ids false [9, 9, 9, 9, 9, 9, 9, 9, 9, 9, 9, 9] c5fields).1 =
       le32 ((4 + (append_sv false idKey (.hv_int 7) ++ fields_to_bson false true c5fields).length + 1 : Nat) : Int) ++
         (append_sv false idKey (.hv_int 7) ++ (fields_to_bson false true c5fields ++ [0])) ∧
     (hv_to_bson_ids false [9, 9, 9, 9, 9, 9, 9, 9, 9, 9, 9, 9] c5fields).2 =
       some (.hv_int 7) ∧
     (∀ gen2, hv_to_bson_ids false [9, 9, 9, 9, 9, 9, 9, 9, 9, 9, 9, 9] c5fields =
        hv_to_bson_ids false gen2 c5fields) ∧
     (hv_to_bson_ids false [9, 9, 9, 9, 9, 9, 9, 9, 9, 9, 9, 9]
        [([97], HostVal.hv_int 5)]).1 =
       le32 ((4 + ((BSON_OID :: (serialize_key idKey ++ [9, 9, 9, 9, 9, 9, 9, 9, 9, 9, 9, 9])) ++ fields_to_bson false true [([97], HostVal.hv_int 5)]).length + 1 : Nat) : Int) ++
         ((BSON_OID :: (serialize_key idKey ++ [9, 9, 9, 9, 9, 9, 9, 9, 9, 9, 9, 9])) ++ (fields_to_bson false true [([97], HostVal.hv_int 5)] ++ [0])) ∧
     (hv_to_bson_ids false [9, 9, 9, 9, 9, 9, 9, 9, 9, 9, 9, 9]
        [([97], HostVal.hv_int 5)]).2 =
       some (.hv_oid (perl_mongo_make_oid [9, 9, 9, 9, 9, 9, 9, 9, 9, 9, 9, 9]))) :=
  ⟨⟨rfl, rfl⟩,
   C5_id_insertion false [9, 9, 9, 9, 9, 9, 9, 9, 9, 9, 9, 9] c5fields
     [([97], HostVal.hv_int 5)] (.hv_int 7) rfl rfl⟩

/-- The single-field mapping of the C8 scenario. -/
def c8fields : List (List Nat × HostVal) := [([97], .hv_int 1)]

/-- C8 counterexample.  On a build with `USE_64_BIT_INT` defined, the
untyped host integer 1 is encoded with the int64 tag (18) and an 8-byte
payload, yielding 16 bytes — not the 12 bytes with the int32 tag (16)
the claim requires: the int32/int64 choice is made by the host build
configuration, not by magnitude. -/
theorem C8_counterexample :
    hv_to_bson true c8fields ≠
      [12, 0, 0, 0, 16, 97, 0, 1, 0, 0, 0, 0] ∧
    hv_to_bson true c8fields =
      [16, 0, 0, 0, 18, 97, 0, 1, 0, 0, 0, 0, 0, 0, 0, 0] := by decide

/-- C8 (amended).  Encoding the single-field mapping with key `a` and
untyped host integer value 1 produces exactly the 12 bytes
`0C 00 00 00 10 61 00 01 00 00 00 00` on builds WITHOUT
`USE_64_BIT_INT`, and exactly the 16-byte int64 form
`10 00 00 00 12 61 00 01 00 00 00 00 00 00 00 00` on builds with it:
for untyped host integers the int32/int64 tag choice is made by the
build configuration, not by magnitude. -/
theorem C8_int_tag_by_build :
    hv_to_bson false c8fields =
      [12, 0, 0, 0, 16, 97, 0, 1, 0, 0, 0, 0] ∧
    hv_to_bson true c8fields =
      [16, 0, 0, 0, 18, 97, 0, 1, 0, 0, 0, 0, 0, 0, 0, 0] := by decide

/-! ## BSON decoder (`perl_mongo.c`: `bson_to_sv`, `bson_to_av`,
`elem_to_sv`)

The decoder walks raw pointers; reading past the end of the buffer is
undefined behaviour in the C and is modelled by `none`.  A fatal
`croak` (unknown type tag, negative declared string length feeding
`newSVpvn`) is also modelled by `none`: the claims under study only
distinguish successful decodes from failures.  The functions carry a
fuel argument for termination; fuel is consumed once per decoded field
or element, so any fuel larger than the byte length of the input is
sufficient, and all theorems hold for every fuel value. -/

/-- Decoded host values, one constructor per `elem_to_sv` branch.
`num` keeps the raw 8 IEEE-754 bytes (the claims never compute with
doubles); `date` keeps the raw signed millisecond count (the
`dt_type`-dependent host-object construction is out of scope);
`dbref` is the value produced through the `MongoDB::DBRef` callback,
carrying the decoded fields. -/
inductive SVv where
  | oid (hex : List Nat)
  | num (raw : List Nat)
  | str (bytes : List Nat)
  | doc (fields : List (List Nat × SVv))
  | arr (elems : List SVv)
  | dbref (fields : List (List Nat × SVv))
  | binary (subtype : Nat) (data : List Nat)
  | bool (b : Nat)
  | null
  | int (i : Int)
  | long (i : Int)
  | date (ms : Int)
  | regex (pat flags : List Nat)
  | code (src : List Nat) (scope : Option SVv)
  | timestamp (inc sec : Int)
  | minkey
  | maxkey

/-- Read a NUL-terminated byte string: the bytes before the first NUL
and the rest of the stream after it; `none` when no NUL exists before
the end of the buffer (`strlen` would walk past the end). -/
def takeCString : List Nat → Option (List Nat × List Nat)
  | [] => none
  | 0 :: rest => some ([], rest)
  | c :: rest =>
      match takeCString rest with
      | some (str, r) => some (c :: str, r)
      | none => none

/-- The bytes of the key `$ref`. -/
def refKey : List Nat := [36, 114, 101, 102]

/-- The bytes of the key `$id`. -/
def idRefKey : List Nat := [36, 105, 100]

/-- The bytes of the key `$db`. -/
def dbKey : List Nat := [36, 100, 98]

/-- The three DBRef checks of `bson_to_sv` (`perl_mongo.c` lines
678-680), applied to the `key_num`-th key (1-based) with the current
`is_dbref` flag. -/
def dbref_step (n : Nat) (name : List Nat) (d : Bool) : Bool :=
  let d1 := if n = 1 ∧ name ≠ refKey then false else d
  let d2 := if n = 2 ∧ d1 = true ∧ name ≠ idRefKey then false else d1
  if n = 3 ∧ d2 = true ∧ name ≠ dbKey then false else d2

/-- `dbref_step` folded over a key list from a starting counter and
flag — the value of `(key_num, is_dbref)` after the field loop. -/
def dbref_fold : Nat → Bool → List (List Nat) → Nat × Bool
  | n, d, [] => (n, d)
  | n, d, k :: ks => dbref_fold (n + 1) (dbref_step (n + 1) k d) ks

mutual

/-- The field loop of `bson_to_sv`: read a type tag (zero stops the
loop), the NUL-terminated field name (updating `key_num` and the
DBRef flag per `dbref_step`), and the tag-dispatched value; fields
accumulate in decode order. -/
def sv_fields (fuel : Nat) (inflate : Bool) (acc : List (List Nat × SVv))
    (n : Nat) (d : Bool) (s : List Nat) :
    Option (List (List Nat × SVv) × Nat × Bool × List Nat) :=
  match fuel with
  | 0 => none
  | fuel + 1 =>
    match s with
    | [] => none
    | t :: s1 =>
      if t = 0 then some (acc, n, d, s1)
      else
        match takeCString s1 with
        | none => none
        | some (name, s2) =>
          match elem_to_sv fuel inflate t s2 with
          | none => none
          | some (v, s3) =>
              sv_fields fuel inflate (acc ++ [(name, v)]) (n + 1)
                (dbref_step (n + 1) name d) s3

/-- The element loop of `bson_to_av`: identical walk, discarding the
numeric-string keys and collecting the values. -/
def av_elems (fuel : Nat) (inflate : Bool) (acc : List SVv) (s : List Nat) :
    Option (List SVv × List Nat) :=
  match fuel with
  | 0 => none
  | fuel + 1 =>
    match s with
    | [] => none
    | t :: s1 =>
      if t = 0 then some (acc, s1)
      else
        match takeCString s1 with
        | none => none
        | some (_, s2) =>
          match elem_to_sv fuel inflate t s2 with
          | none => none
          | some (v, s3) => av_elems fuel inflate (acc ++ [v]) s3

/-- Model of `bson_to_sv`: skip the 4 declared-length bytes WITHOUT
reading or checking them (`buf->pos += INT_32`), run the field loop,
and — when exactly 3 keys `$ref`, `$id`, `$db` were seen in that order
and `inflate_dbrefs` is set — build the DBRef value instead of a plain
mapping. -/
def bson_to_sv (fuel : Nat) (inflate : Bool) (s : List Nat) :
    Option (SVv × List Nat) :=
  match fuel with
  | 0 => none
  | fuel + 1 =>
    match sv_fields fuel inflate [] 0 true (s.drop 4) with
    | none => none
    | some (fields, n, d, rest) =>
      if n = 3 ∧ d = true ∧ inflate = true then some (.dbref fields, rest)
      else some (.doc fields, rest)

/-- Model of `bson_to_av`: skip the 4 declared-length bytes unchecked
and collect the elements. -/
def bson_to_av (fuel : Nat) (inflate : Bool) (s : List Nat) :
    Option (SVv × List Nat) :=
  match fuel with
  | 0 => none
  | fuel + 1 =>
    match av_elems fuel inflate [] (s.drop 4) with
    | none => none
    | some (elems, rest) => some (.arr elems, rest)

/-- Model of `elem_to_sv`: the tag dispatch, each branch advancing the
read position exactly as the C does.  Strings (`BSON_STRING`,
`BSON_SYMBOL`) read a 4-byte signed length `len` INCLUDING the NUL,
take `len - 1` content bytes and skip `len` in total; a `len < 1`
would feed a negative count to `newSVpvn` (undefined, hence `none`).
Binaries with the deprecated subtype 2 use the redundant inner length
when it equals `len - 4`.  `BSON_CODE` (code with scope) skips its
4-byte total length unchecked, reads the length-prefixed source and
recursively decodes the scope document. -/
def elem_to_sv (fuel : Nat) (inflate : Bool) (t : Nat) (s : List Nat) :
    Option (SVv × List Nat) :=
  match fuel with
  | 0 => none
  | fuel + 1 =>
    if t = BSON_OID then
      match takeBytes 12 s with
      | none => none
      | some (raw, rest) => some (.oid (perl_mongo_make_oid raw), rest)
    else if t = BSON_DOUBLE then
      match takeBytes 8 s with
      | none => none
      | some (raw, rest) => some (.num raw, rest)
    else if t = BSON_STRING ∨ t = BSON_SYMBOL then
      match takeBytes 4 s with
      | none => none
      | some (lenB, s1) =>
        let len := toInt32 (readLE32 lenB)
        if len < 1 then none
        else
          match takeBytes len.toNat s1 with
          | none => none
          | some (content, s2) => some (.str (content.take (len.toNat - 1)), s2)
    else if t = BSON_OBJECT then bson_to_sv fuel inflate s
    else if t = BSON_ARRAY then bson_to_av fuel inflate s
    else if t = BSON_BINARY then
      match takeBytes 4 s with
      | none => none
      | some (lenB, s1) =>
        let len := toInt32 (readLE32 lenB)
        match s1 with
        | [] => none
        | st :: s2 =>
          if st = 2 then
            match takeBytes 4 s2 with
            | none => none
            | some (len2B, s3) =>
              let len2 := toInt32 (readLE32 len2B)
              if len2 = len - 4 then
                if len2 < 0 then none
                else
                  match takeBytes len2.toNat s3 with
                  | none => none
                  | some (data, rest) => some (.binary st data, rest)
              else
                if len < 0 then none
                else
                  match takeBytes len.toNat s2 with
                  | none => none
                  | some (data, rest) => some (.binary st data, rest)
          else
            if len < 0 then none
            else
              match takeBytes len.toNat s2 with
              | none => none
              | some (data, rest) => some (.binary st data, rest)
    else if t = BSON_BOOL then
      match s with
      | [] => none
      | b :: rest => some (.bool b, rest)
    else if t = BSON_UNDEF ∨ t = BSON_NULL then some (.null, s)
    else if t = BSON_INT then
      match takeBytes 4 s with
      | none => none
      | some (raw, rest) => some (.int (toInt32 (readLE32 raw)), rest)
    else if t = BSON_LONG then
      match takeBytes 8 s with
      | none => none
      | some (raw, rest) => some (.long (toInt64 (readLE64 raw)), rest)
    else if t = BSON_DATE then
      match takeBytes 8 s with
      | none => none
      | some (raw, rest) => some (.date (toInt64 (readLE64 raw)), rest)
    else if t = BSON_REGEX then
      match takeCString s with
      | none => none
      | some (pat, s1) =>
        match takeCString s1 with
        | none => none
        | some (flags, s2) => some (.regex pat flags, s2)
    else if t = BSON_CODE then
      match takeBytes 4 (s.drop 4) with
      | none => none
      | some (clB, s1) =>
        let cl := toInt32 (readLE32 clB)
        if cl < 1 then none
        else
          match takeBytes cl.toNat s1 with
          | none => none
          | some (content, s2) =>
            match bson_to_sv fuel inflate s2 with
            | none => none
            | some (scope, s3) =>
                some (.code (content.take (cl.toNat - 1)) (some scope), s3)
    else if t = BSON_CODE__D then
      match takeBytes 4 s with
      | none => none
      | some (clB, s1) =>
        let cl := toInt32 (readLE32 clB)
        if cl < 1 then none
        else
          match takeBytes cl.toNat s1 with
          | none => none
          | some (content, s2) =>
              some (.code (content.take (cl.toNat - 1)) none, s2)
    else if t = BSON_TIMESTAMP then
      match takeBytes 4 s with
      | none => none
      | some (incB, s1) =>
        match takeBytes 4 s1 with
        | none => none
        | some (secB, s2) =>
            some (.timestamp (toInt32 (readLE32 incB)) (toInt32 (readLE32 secB)), s2)
    else if t = BSON_MINKEY then some (.minkey, s)
    else if t = BSON_MAXKEY then some (.maxkey, s)
    else none

end

theorem dbref_fold_fst : ∀ (ks : List (List Nat)) (n : Nat) (d : Bool),
    (dbref_fold n d ks).1 = n + ks.length := by
  intro ks
  induction ks with
  | nil => intro n d; simp [dbref_fold]
  | cons k rest ih =>
      intro n d
      rw [dbref_fold, ih]
      simp
      omega

theorem sv_fields_dbref_fold :
    ∀ (fuel : Nat) (inflate : Bool) (acc : List (List Nat × SVv)) (n : Nat)
      (d : Bool) (s : List Nat) (fields : List (List Nat × SVv)) (n2 : Nat)
      (d2 : Bool) (rest : List Nat),
      sv_fields fuel inflate acc n d s = some (fields, n2, d2, rest) →
      ∃ newFields, fields = acc ++ newFields ∧
        (n2, d2) = dbref_fold n d (newFields.map Prod.fst) := by
  intro fuel
  induction fuel with
  | zero => intro inflate acc n d s fields n2 d2 rest h; cases h
  | succ fuel ih =>
      intro inflate acc n d s fields n2 d2 rest h
      rw [sv_fields.eq_def] at h
      dsimp only at h
      cases s with
      | nil => cases h
      | cons t s1 =>
          dsimp only at h
          by_cases ht : t = 0
          · rw [if_pos ht] at h
            cases h
            exact ⟨[], by simp, by simp [dbref_fold]⟩
          · rw [if_neg ht] at h
            cases hcs : takeCString s1 with
            | none => rw [hcs] at h; cases h
            | some p =>
                obtain ⟨name, s2⟩ := p
                rw [hcs] at h
                dsimp only at h
                cases hel : elem_to_sv fuel inflate t s2 with
                | none => rw [hel] at h; cases h
                | some q =>
                    obtain ⟨v, s3⟩ := q
                    rw [hel] at h
                    dsimp only at h
                    obtain ⟨nf, hnf, hfold⟩ := ih inflate (acc ++ [(name, v)])
                      (n + 1) (dbref_step (n + 1) name d) s3 fields n2 d2 rest h
                    refine ⟨(name, v) :: nf, ?_, ?_⟩
                    · rw [hnf, List.append_assoc]; rfl
                    · rw [List.map_cons, dbref_fold]
                      exact hfold

theorem dbref_step_1 (a : List Nat) (d : Bool) :
    dbref_step 1 a d = if a = refKey then d else false := by
  unfold dbref_step
  by_cases h : a = refKey <;> simp [h]

theorem dbref_step_2 (b : List Nat) (d : Bool) :
    dbref_step 2 b d = if b = idRefKey then d else false := by
  unfold dbref_step
  by_cases h : b = idRefKey <;> cases d <;> simp [h]

theorem dbref_step_3 (c : List Nat) (d : Bool) :
    dbref_step 3 c d = if c = dbKey then d else false := by
  unfold dbref_step
  by_cases h : c = dbKey <;> cases d <;> simp [h]

theorem dbref_fold_zero_iff (ks : List (List Nat)) :
    ((dbref_fold 0 true ks).1 = 3 ∧ (dbref_fold 0 true ks).2 = true) ↔
      ks = [refKey, idRefKey, dbKey] := by
  constructor
  · rintro ⟨h3, hd⟩
    have hfst := dbref_fold_fst ks 0 true
    have hlen : ks.length = 3 := by omega
    obtain ⟨a, b, c, hks⟩ : ∃ a b c, ks = [a, b, c] := by
      match ks, hlen with
      | [a, b, c], _ => exact ⟨a, b, c, rfl⟩
    subst hks
    simp only [dbref_fold] at hd
    norm_num [dbref_step_1, dbref_step_2, dbref_step_3] at hd
    simp_all
  · rintro rfl
    exact ⟨by decide, by decide⟩

/-- C6 (amended).  The decoded fields of a document are recognized as a
cross-collection reference (and wrapped through the `MongoDB::DBRef`
construction callback instead of being returned as a plain mapping)
exactly when the document has EXACTLY the three keys `$ref`, `$id`,
`$db`, in that order, with no extra keys, and `inflate_dbrefs` is set:
the `$db` key is mandatory, not optional, so a two-field document
`{$ref, $id}` is NOT recognized. -/
theorem C6_dbref_exact_triple (fuel : Nat) (inflate : Bool) (s : List Nat)
    (fields : List (List Nat × SVv)) (n : Nat) (d : Bool) (rest : List Nat)
    (h : sv_fields fuel inflate [] 0 true s = some (fields, n, d, rest)) :
    ((n = 3 ∧ d = true) ↔ fields.map Prod.fst = [refKey, idRefKey, dbKey]) ∧
    bson_to_sv (fuel + 1) inflate ([0, 0, 0, 0] ++ s) =
      some ((if n = 3 ∧ d = true ∧ inflate = true then SVv.dbref fields
             else SVv.doc fields), rest) := by
  obtain ⟨nf, hnf, hfold⟩ := sv_fields_dbref_fold fuel inflate [] 0 true s
    fields n d rest h
  simp only [List.nil_append] at hnf
  subst hnf
  constructor
  · have hn := congrArg Prod.fst hfold
    have hd := congrArg Prod.snd hfold
    simp only at hn hd
    rw [hn, hd]
    exact dbref_fold_zero_iff (List.map Prod.fst fields)
  · rw [bson_to_sv]
    have hdrop : (([0, 0, 0, 0] : List Nat) ++ s).drop 4 = s := rfl
    rw [hdrop, h]
    dsimp only
    by_cases hc : n = 3 ∧ d = true ∧ inflate = true
    · rw [if_pos hc, if_pos hc]
    · rw [if_neg hc, if_neg hc]

/-- The wire bytes of the two-field document with `$ref` mapped to the
one-character string `c` and `$id` mapped to `i`. -/
def c6bytes : List Nat :=
  [28, 0, 0, 0,
   2, 36, 114, 101, 102, 0, 2, 0, 0, 0, 99, 0,
   2, 36, 105, 100, 0, 2, 0, 0, 0, 105, 0,
   0]

/-- C6 counterexample.  Decoding the two-field document
`{$ref: "c", $id: "i"}` with `inflate_dbrefs` set yields a PLAIN
mapping (`SVv.doc`), not a DBRef: the claim that the `{$ref, $id}`
shape without `$db` is recognized as a cross-collection reference is
false — the code requires `$db` as a mandatory third key. -/
theorem C6_counterexample :
    bson_to_sv 9 true c6bytes =
      some (.doc [([36, 114, 101, 102], .str [99]),
                  ([36, 105, 100], .str [105])], []) := by rfl

/-- The fields decoded from `c6bytes`. -/
def c6fieldsDecoded : List (List Nat × SVv) :=
  [([36, 114, 101, 102], .str [99]), ([36, 105, 100], .str [105])]

/-- Witness for `C6_dbref_exact_triple` on the concrete two-field
document stream. -/
theorem C6_dbref_exact_triple_witness :
    sv_fields 8 true [] 0 true (c6bytes.drop 4) =
      some (c6fieldsDecoded, 2, true, []) ∧
    (((2 = 3 ∧ true = true) ↔
        c6fieldsDecoded.map Prod.fst = [refKey, idRefKey, dbKey]) ∧
     bson_to_sv 9 true ([0, 0, 0, 0] ++ c6bytes.drop 4) =
       some ((if 2 = 3 ∧ true = true ∧ true = true then SVv.dbref c6fieldsDecoded
              else SVv.doc c6fieldsDecoded), [])) :=
  ⟨rfl, C6_dbref_exact_triple 8 true (c6bytes.drop 4) c6fieldsDecoded 2 true [] rfl⟩

/-- C9 (amended).  `bson_to_sv` and `bson_to_av` advance past the
4-byte declared document length WITHOUT reading it: the decode result
does not depend on those bytes at all, so no comparison of the
declared length against the remaining buffer size takes place and no
`TruncatedInput`-style failure is raised on its account; termination
of the field walk is governed solely by the zero type tag (and running
past the end of a malformed buffer is undefined behaviour, `none`). -/
theorem C9_no_length_check (fuel : Nat) (inflate : Bool) (a b rest : List Nat)
    (ha : a.length = 4) (hb : b.length = 4) :
    bson_to_sv fuel inflate (a ++ rest) = bson_to_sv fuel inflate (b ++ rest) ∧
    bson_to_av fuel inflate (a ++ rest) = bson_to_av fuel inflate (b ++ rest) := by
  cases fuel with
  | zero => exact ⟨rfl, rfl⟩
  | succ fuel =>
      have hda : (a ++ rest).drop 4 = rest := List.drop_left' ha
      have hdb : (b ++ rest).drop 4 = rest := List.drop_left' hb
      constructor
      · rw [bson_to_sv, bson_to_sv, hda, hdb]
      · rw [bson_to_av, bson_to_av, hda, hdb]

/-- Witness for `C9_no_length_check`: a buffer whose declared length
claims 1000 bytes decodes identically to one declaring the true 5. -/
theorem C9_no_length_check_witness :
    (([232, 3, 0, 0] : List Nat).length = 4 ∧
     ([5, 0, 0, 0] : List Nat).length = 4) ∧
    (bson_to_sv 2 true ([232, 3, 0, 0] ++ [0]) =
       bson_to_sv 2 true ([5, 0, 0, 0] ++ [0]) ∧
     bson_to_av 2 true ([232, 3, 0, 0] ++ [0]) =
       bson_to_av 2 true ([5, 0, 0, 0] ++ [0])) :=
  ⟨⟨by decide, by decide⟩,
   C9_no_length_check 2 true [232, 3, 0, 0] [5, 0, 0, 0] [0]
     (by decide) (by decide)⟩

/-- C9 counterexample.  A 5-byte buffer declaring a document length of
1000 decodes successfully to the empty document — no `TruncatedInput`
failure occurs even though the declared length (1000) far exceeds the
available bytes (5), refuting the claim that the declared length is
sanity-checked against the remaining buffer before any field is read. -/
theorem C9_counterexample :
    toInt32 (readLE32 [232, 3, 0, 0]) = 1000 ∧
    ([232, 3, 0, 0, 0] : List Nat).length = 5 ∧
    bson_to_sv 2 true [232, 3, 0, 0, 0] = some (.doc [], []) :=
  ⟨by decide, by decide, rfl⟩

end MongoPerl
